import Mathlib

/-
Verification of the response-normalization / schema-validation pipeline and the
GitHub-side glue of the ai-issue-resolver action.

Shallow embedding conventions:
* JS strings are `List Char`; `String` literals are converted with `.toList`.
* `JSON.parse` (a host primitive of the JS runtime) is modelled by a total
  fuel-indexed recursive-descent parser `Json.parse` over the full JSON grammar.
  Numbers keep their raw literal text (the claims never depend on numeric
  values, only on parse success and structural identity).
* Fallible JS code (`throw`/`catch`) is modelled with `Except`/`Option`.
* External collaborators (octokit REST calls, the LLM `model.invoke`) are
  modelled as explicit function-valued parameters; side-effecting call
  sequences are returned as explicit traces.

Source files referenced below are from the repository `src/` tree; several of
them contain two revisions of the same module separated by a marker, and line
numbers identify which revision a definition embeds.
-/

/-! ### JSON values (model of the data produced by the JS `JSON.parse`) -/

/-- A JSON value. Numbers keep the raw literal characters (JS would convert
them to doubles; none of the verified properties depend on numeric value). -/
inductive Json where
  | null
  | bool (b : Bool)
  | num (raw : List Char)
  | str (s : List Char)
  | arr (elems : List Json)
  | obj (fields : List (List Char × Json))

/-! ### JSON parsing (model of the host `JSON.parse`) -/

def isWsChar : Char → Bool
  | ' ' => true
  | '\t' => true
  | '\n' => true
  | '\r' => true
  | _ => false

def skipWs (s : List Char) : List Char := s.dropWhile isWsChar

def takeDigits (s : List Char) : List Char × List Char :=
  (s.takeWhile Char.isDigit, s.dropWhile Char.isDigit)

/-- Integer part of the JSON number grammar: `0` or a nonzero digit followed
by digits. Returns the consumed characters and the remaining input. -/
def parseIntPart : List Char → Option (List Char × List Char)
  | [] => none
  | c :: rest =>
    if c = '0' then some ([c], rest)
    else if c.isDigit then
      let (ds, r) := takeDigits rest
      some (c :: ds, r)
    else none

/-- Optional fraction part `.digits`; on a malformed fraction nothing is
consumed (the stray character then fails at a higher level, as in JS). -/
def parseFracPart (s : List Char) : List Char × List Char :=
  match s with
  | '.' :: rest =>
    let (ds, r) := takeDigits rest
    if ds.isEmpty then ([], s) else ('.' :: ds, r)
  | _ => ([], s)

/-- Optional exponent part `[eE][+-]?digits`; nothing consumed if malformed. -/
def parseExpPart (s : List Char) : List Char × List Char :=
  match s with
  | e :: rest =>
    if e = 'e' || e = 'E' then
      match rest with
      | sgn :: rest2 =>
        if sgn = '+' || sgn = '-' then
          let (ds, r) := takeDigits rest2
          if ds.isEmpty then ([], s) else (e :: sgn :: ds, r)
        else
          let (ds, r) := takeDigits rest
          if ds.isEmpty then ([], s) else (e :: ds, r)
      | [] => ([], s)
    else ([], s)
  | [] => ([], [])

/-- A complete JSON number literal, kept raw. -/
def parseNumberRaw (s : List Char) : Option (List Char × List Char) :=
  match s with
  | '-' :: rest =>
    match parseIntPart rest with
    | some (i, r) =>
      let (f, r2) := parseFracPart r
      let (ex, r3) := parseExpPart r2
      some ('-' :: (i ++ f ++ ex), r3)
    | none => none
  | _ =>
    match parseIntPart s with
    | some (i, r) =>
      let (f, r2) := parseFracPart r
      let (ex, r3) := parseExpPart r2
      some (i ++ f ++ ex, r3)
    | none => none

/-- Value of one hexadecimal digit, by code point: 0-9, a-f, A-F. -/
def hexVal (c : Char) : Option Nat :=
  let n := c.toNat
  if 48 ≤ n ∧ n ≤ 57 then some (n - 48)
  else if 97 ≤ n ∧ n ≤ 102 then some (n - 87)
  else if 65 ≤ n ∧ n ≤ 70 then some (n - 55)
  else none

/-- The character denoted by a single-letter JSON escape, if it is one of the
eight legal ones (quote, backslash, slash, backspace, form feed, line feed,
carriage return, tab). -/
def escapeChar (e : Char) : Option Char :=
  if e = '"' ∨ e = '\\' ∨ e = '/' then some e
  else if e = 'b' then some (Char.ofNat 8)
  else if e = 'f' then some (Char.ofNat 12)
  else if e = 'n' then some (Char.ofNat 10)
  else if e = 'r' then some (Char.ofNat 13)
  else if e = 't' then some (Char.ofNat 9)
  else none

/-- Body of a JSON string after the opening quote: returns the decoded
characters and the input remaining after the closing quote. Control
characters below 0x20 are rejected, as in JSON. -/
def parseStringBody (fuel : Nat) (s : List Char) : Option (List Char × List Char) :=
  match fuel with
  | 0 => none
  | fuel + 1 =>
    match s with
    | [] => none
    | '"' :: rest => some ([], rest)
    | '\\' :: 'u' :: h1 :: h2 :: h3 :: h4 :: rest =>
      match hexVal h1, hexVal h2, hexVal h3, hexVal h4 with
      | some a, some b, some c, some d =>
        let code := ((a * 16 + b) * 16 + c) * 16 + d
        match parseStringBody fuel rest with
        | some (cs, r) => some (Char.ofNat code :: cs, r)
        | none => none
      | _, _, _, _ => none
    | '\\' :: e :: rest =>
      match escapeChar e with
      | some ch =>
        match parseStringBody fuel rest with
        | some (cs, r) => some (ch :: cs, r)
        | none => none
      | none => none
    | c :: rest =>
      if c.toNat < 32 then none
      else
        match parseStringBody fuel rest with
        | some (cs, r) => some (c :: cs, r)
        | none => none

mutual

/-- One JSON value (leading whitespace allowed), returning the rest. -/
def parseValue (fuel : Nat) (s : List Char) : Option (Json × List Char) :=
  match fuel with
  | 0 => none
  | fuel + 1 =>
    match skipWs s with
    | 'n' :: 'u' :: 'l' :: 'l' :: rest => some (Json.null, rest)
    | 't' :: 'r' :: 'u' :: 'e' :: rest => some (Json.bool true, rest)
    | 'f' :: 'a' :: 'l' :: 's' :: 'e' :: rest => some (Json.bool false, rest)
    | '"' :: rest =>
      match parseStringBody fuel rest with
      | some (cs, r) => some (Json.str cs, r)
      | none => none
    | '[' :: rest =>
      match skipWs rest with
      | ']' :: r => some (Json.arr [], r)
      | _ =>
        match parseElems fuel rest with
        | some (xs, r) => some (Json.arr xs, r)
        | none => none
    | '{' :: rest =>
      match skipWs rest with
      | '}' :: r => some (Json.obj [], r)
      | _ =>
        match parseMembers fuel rest with
        | some (ms, r) => some (Json.obj ms, r)
        | none => none
    | other =>
      match parseNumberRaw other with
      | some (raw, r) => some (Json.num raw, r)
      | none => none

/-- Comma-separated array elements up to and including the closing bracket. -/
def parseElems (fuel : Nat) (s : List Char) : Option (List Json × List Char) :=
  match fuel with
  | 0 => none
  | fuel + 1 =>
    match parseValue fuel s with
    | none => none
    | some (v, r) =>
      match skipWs r with
      | ',' :: r2 =>
        match parseElems fuel r2 with
        | some (xs, r3) => some (v :: xs, r3)
        | none => none
      | ']' :: r2 => some ([v], r2)
      | _ => none

/-- Comma-separated object members up to and including the closing brace. -/
def parseMembers (fuel : Nat) (s : List Char) : Option (List (List Char × Json) × List Char) :=
  match fuel with
  | 0 => none
  | fuel + 1 =>
    match skipWs s with
    | '"' :: r =>
      match parseStringBody fuel r with
      | none => none
      | some (k, r2) =>
        match skipWs r2 with
        | ':' :: r3 =>
          match parseValue fuel r3 with
          | none => none
          | some (v, r4) =>
            match skipWs r4 with
            | ',' :: r5 =>
              match parseMembers fuel r5 with
              | some (ms, r6) => some ((k, v) :: ms, r6)
              | none => none
            | '}' :: r5 => some ([(k, v)], r5)
            | _ => none
        | _ => none
    | _ => none

end

/-- Model of the host `JSON.parse`: one JSON document, with surrounding
whitespace permitted, and the whole input must be consumed. The fuel bound is
generous enough for every input (each fuel tick either consumes a character or
descends into a structure opened by a consumed character). -/
def Json.parse (s : List Char) : Option Json :=
  match parseValue (2 * s.length + 4) s with
  | some (v, rest) => if skipWs rest = [] then some v else none
  | none => none

/-! ### Response extraction
Embedding of `AIService.extractJSONFromResponse`
(src/src/services/ai-service.ts, lines 150-170). -/

/-- Prefix of `l` ending at the last occurrence of `c` (empty if `c ∉ l`).
This is what the greedy `[\s\S]*` followed by the literal closer matches. -/
def takeToLast (c : Char) (l : List Char) : List Char :=
  (l.reverse.dropWhile (fun d => d != c)).reverse

/-- Model of `content.match(/(\[[\s\S]*\])|(\{[\s\S]*\})/)`: the JS engine
scans start positions left to right; at a `[` with a later `]` the first
alternative matches greedily up to the last `]` of the whole remaining text,
at a `{` with a later `}` the second alternative matches up to the last `}`.
Returns the full matched span (`matches[0]`), if any. -/
def jsonSpanMatch : List Char → Option (List Char)
  | [] => none
  | c :: rest =>
    if c == '[' && rest.contains ']' then some (c :: takeToLast ']' rest)
    else if c == '{' && rest.contains '}' then some (c :: takeToLast '}' rest)
    else jsonSpanMatch rest

/-- Errors thrown by `extractJSONFromResponse`: the two `throw new Error(...)`
sites of the source. -/
inductive ExtractError where
  | foundButUnparseable (potentialJSON : List Char)
  | noValidJson
deriving DecidableEq

/-- `AIService.extractJSONFromResponse`: direct `JSON.parse` first; on failure
a regex scan for an array/object-looking span, parsed in turn; errors
otherwise. -/
def extractJSONFromResponse (content : List Char) : Except ExtractError Json :=
  match Json.parse content with
  | some v => Except.ok v
  | none =>
    match jsonSpanMatch content with
    | some potentialJSON =>
      match Json.parse potentialJSON with
      | some v => Except.ok v
      | none => Except.error (ExtractError.foundButUnparseable potentialJSON)
    | none => Except.error ExtractError.noValidJson

/-! ### Data model (src/src/types/index.ts) and zod schemas
(src/src/services/ai-service.ts, constructor lines 35-67). -/

/-- `CodeChange` of src/src/types/index.ts. -/
structure CodeChange where
  path : List Char
  content : List Char
  message : List Char
deriving DecidableEq

inductive QualityType where
  | performance | maintainability | complexity
deriving DecidableEq

inductive Severity3 where
  | low | medium | high
deriving DecidableEq

inductive Severity4 where
  | low | medium | high | critical
deriving DecidableEq

structure QualityIssue where
  type : QualityType
  file : List Char
  description : List Char
  suggestion : List Char
  severity : Severity3
deriving DecidableEq

structure SecurityIssue where
  type : List Char
  file : List Char
  description : List Char
  severity : Severity4
  remediation : List Char
deriving DecidableEq

structure Improvement where
  file : List Char
  description : List Char
  suggestion : List Char
deriving DecidableEq

structure TestingSuggestion where
  file : List Char
  description : List Char
  testCases : List (List Char)
deriving DecidableEq

/-- `CodeReviewFeedback` of src/src/types/index.ts. -/
structure CodeReviewFeedback where
  qualityIssues : List QualityIssue
  securityIssues : List SecurityIssue
  improvements : List Improvement
  testingSuggestions : List TestingSuggestion
deriving DecidableEq

/-- Last binding of a key in a JS object literal wins (later duplicate keys
overwrite earlier ones before zod ever sees the object). -/
def lookupLast (k : List Char) : List (List Char × Json) → Option Json
  | [] => none
  | (k', v) :: rest =>
    match lookupLast k rest with
    | some r => some r
    | none => if k' = k then some v else none

/-- `z.string()` on field `k` of an object: present and a string, no coercion. -/
def getStr (l : List (List Char × Json)) (k : List Char) : Option (List Char) :=
  match lookupLast k l with
  | some (Json.str s) => some s
  | _ => none

/-- All-or-nothing traversal: `none` as soon as one element fails, mirroring
a zod array validation's success/failure boundary. -/
def optionMapList {α β : Type} (f : α → Option β) : List α → Option (List β)
  | [] => some []
  | x :: xs =>
    match f x with
    | none => none
    | some y =>
      match optionMapList f xs with
      | none => none
      | some ys => some (y :: ys)

/-- Minimal stand-in for a `ZodError`: the claims only depend on validation
failing, not on the enumerated field paths. -/
inductive SchemaError where
  | invalid
deriving DecidableEq

/-- One element of `codeChangeSchema`: `z.object` with three `z.string()`
fields; unknown extra keys are stripped (ignored). -/
def validateCodeChange : Json → Option CodeChange
  | Json.obj l => do
    let p ← getStr l ("path".toList)
    let c ← getStr l ("content".toList)
    let m ← getStr l ("message".toList)
    pure (CodeChange.mk p c m)
  | _ => none

/-- `codeChangeSchema.parse`: `z.array(z.object({path, content, message}))`
(src/src/services/ai-service.ts lines 35-39). -/
def codeChangeValidate (j : Json) : Except SchemaError (List CodeChange) :=
  match j with
  | Json.arr xs =>
    match optionMapList validateCodeChange xs with
    | some cs => Except.ok cs
    | none => Except.error SchemaError.invalid
  | _ => Except.error SchemaError.invalid

def qualityTypeOfStr (s : List Char) : Option QualityType :=
  if s = "performance".toList then some QualityType.performance
  else if s = "maintainability".toList then some QualityType.maintainability
  else if s = "complexity".toList then some QualityType.complexity
  else none

def severity3OfStr (s : List Char) : Option Severity3 :=
  if s = "low".toList then some Severity3.low
  else if s = "medium".toList then some Severity3.medium
  else if s = "high".toList then some Severity3.high
  else none

def severity4OfStr (s : List Char) : Option Severity4 :=
  if s = "low".toList then some Severity4.low
  else if s = "medium".toList then some Severity4.medium
  else if s = "high".toList then some Severity4.high
  else if s = "critical".toList then some Severity4.critical
  else none

def strArr? : Json → Option (List (List Char))
  | Json.arr xs =>
    optionMapList (fun x => match x with | Json.str s => some s | _ => none) xs
  | _ => none

def validateQualityIssue : Json → Option QualityIssue
  | Json.obj l => do
    let t ← getStr l ("type".toList)
    let ty ← qualityTypeOfStr t
    let f ← getStr l ("file".toList)
    let d ← getStr l ("description".toList)
    let sg ← getStr l ("suggestion".toList)
    let sv ← getStr l ("severity".toList)
    let sev ← severity3OfStr sv
    pure (QualityIssue.mk ty f d sg sev)
  | _ => none

def validateSecurityIssue : Json → Option SecurityIssue
  | Json.obj l => do
    let t ← getStr l ("type".toList)
    let f ← getStr l ("file".toList)
    let d ← getStr l ("description".toList)
    let sv ← getStr l ("severity".toList)
    let sev ← severity4OfStr sv
    let rem ← getStr l ("remediation".toList)
    pure (SecurityIssue.mk t f d sev rem)
  | _ => none

def validateImprovement : Json → Option Improvement
  | Json.obj l => do
    let f ← getStr l ("file".toList)
    let d ← getStr l ("description".toList)
    let sg ← getStr l ("suggestion".toList)
    pure (Improvement.mk f d sg)
  | _ => none

def validateTestingSuggestion : Json → Option TestingSuggestion
  | Json.obj l => do
    let f ← getStr l ("file".toList)
    let d ← getStr l ("description".toList)
    let tc ← (match lookupLast ("testCases".toList) l with
      | some a => strArr? a
      | none => none)
    pure (TestingSuggestion.mk f d tc)
  | _ => none

/-- `z.array(...)` under key `k` of an object. -/
def validateArrField {α : Type} (l : List (List Char × Json)) (k : List Char)
    (f : Json → Option α) : Option (List α) :=
  match lookupLast k l with
  | some (Json.arr xs) => optionMapList f xs
  | _ => none

/-- `reviewSchema.parse` (src/src/services/ai-service.ts lines 42-67). -/
def reviewValidate (j : Json) : Except SchemaError CodeReviewFeedback :=
  match j with
  | Json.obj l =>
    match (do
      let q ← validateArrField l ("qualityIssues".toList) validateQualityIssue
      let s ← validateArrField l ("securityIssues".toList) validateSecurityIssue
      let imp ← validateArrField l ("improvements".toList) validateImprovement
      let t ← validateArrField l ("testingSuggestions".toList) validateTestingSuggestion
      pure (CodeReviewFeedback.mk q s imp t)) with
    | some r => Except.ok r
    | none => Except.error SchemaError.invalid
  | _ => Except.error SchemaError.invalid

/-- The JSON encoding of a `CodeChange` as an object with exactly the three
declared fields (the shape named by the claims about validation). -/
def codeChangeToJson (c : CodeChange) : Json :=
  Json.obj [("path".toList, Json.str c.path), ("content".toList, Json.str c.content),
    ("message".toList, Json.str c.message)]

/-! ### AI service calls (src/src/services/ai-service.ts)
`model.invoke` is an external LLM round-trip; its outcome (the response text,
or a provider/auth/rate-limit error) is passed in as an `Except`. -/

/-- An error raised by the LLM invocation itself (auth, rate limit, ...). -/
structure ProviderError where
  message : List Char
deriving DecidableEq

def emptyReviewFeedback : CodeReviewFeedback :=
  CodeReviewFeedback.mk [] [] [] []

/-- `AIService.generateChangesFromFeedback` (lines 180-208): `model.invoke`
sits outside the try block; extraction and `codeChangeSchema.parse` sit
inside it, and the catch returns `[]`. -/
def generateChangesFromFeedback (invokeResult : Except ProviderError (List Char)) :
    Except ProviderError (List CodeChange) :=
  match invokeResult with
  | Except.error e => Except.error e
  | Except.ok content =>
    match extractJSONFromResponse content with
    | Except.error _ => Except.ok []
    | Except.ok parsed =>
      match codeChangeValidate parsed with
      | Except.error _ => Except.ok []
      | Except.ok result => Except.ok result

/-- `AIService.generateCodeChanges` (lines 101-133): the inner try/catch
returns `[]` on extraction/validation failure; the outer catch rethrows, so a
failed `model.invoke` propagates. -/
def generateCodeChanges (invokeResult : Except ProviderError (List Char)) :
    Except ProviderError (List CodeChange) :=
  match invokeResult with
  | Except.error e => Except.error e
  | Except.ok content =>
    match extractJSONFromResponse content with
    | Except.error _ => Except.ok []
    | Except.ok parsed =>
      match codeChangeValidate parsed with
      | Except.error _ => Except.ok []
      | Except.ok result => Except.ok result

/-- `AIService.reviewCode` (lines 216-246): `model.invoke` outside the try;
the catch returns a feedback record with all four arrays empty. -/
def reviewCode (invokeResult : Except ProviderError (List Char)) :
    Except ProviderError CodeReviewFeedback :=
  match invokeResult with
  | Except.error e => Except.error e
  | Except.ok content =>
    match extractJSONFromResponse content with
    | Except.error _ => Except.ok emptyReviewFeedback
    | Except.ok parsed =>
      match reviewValidate parsed with
      | Except.error _ => Except.ok emptyReviewFeedback
      | Except.ok result => Except.ok result

/-! ### GitHub service: commitChange
src/src/services/github-service.ts holds two revisions of
`GitHubService.commitChange`; both are embedded. The collaborator is a record
of the two octokit calls involved; branch, path, content (base64-transported
by the Node `Buffer` host primitive, content-preserving) and message are
passed through unchanged by both revisions and identical across the write
calls of one `commitChange` invocation, so a write call is recorded by the
one datum that distinguishes the calls: its optional `sha` argument. -/

inductive ApiError where
  | notFound
  | conflict
  | serverError
deriving DecidableEq

/-- Outcome of `octokit.repos.getContent`: a file (with its blob sha), a
directory listing (`Array.isArray(data)`, so no sha), or a thrown error. -/
inductive ContentLookup where
  | found (sha : List Char)
  | foundDir
  | failed (e : ApiError)

/-- The repository collaborator as seen by `commitChange`. `write sha?` is
`createOrUpdateFileContents` with (`some`) or without (`none`) a `sha`. -/
structure CommitApi where
  getContent : ContentLookup
  write : Option (List Char) → Except ApiError Unit

/-- `commitChange`, first revision (github-service.ts lines 35-59): the lookup
failure is absorbed by `.catch(() => ({data: null}))`, then exactly one write
is issued; a write failure propagates to the caller. Returns the outcome and
the trace of write calls (by sha argument). -/
def commitChangeV1 (api : CommitApi) : Except ApiError Unit × List (Option (List Char)) :=
  let shaOpt : Option (List Char) :=
    match api.getContent with
    | ContentLookup.found s => some s
    | ContentLookup.foundDir => none
    | ContentLookup.failed _ => none
  (api.write shaOpt, [shaOpt])

/-- `commitChange`, second revision (github-service.ts lines 221-261): one try
block wraps both the lookup and the update write; the catch (commented
"File doesn't exist, create new file") issues a second write without a sha,
whose outcome is what the caller sees. -/
def commitChangeV2 (api : CommitApi) : Except ApiError Unit × List (Option (List Char)) :=
  match api.getContent with
  | ContentLookup.found s =>
    match api.write (some s) with
    | Except.ok u => (Except.ok u, [some s])
    | Except.error _ => (api.write none, [some s, none])
  | ContentLookup.foundDir =>
    match api.write none with
    | Except.ok u => (Except.ok u, [none])
    | Except.error _ => (api.write none, [none, none])
  | ContentLookup.failed _ => (api.write none, [none])

/-! ### Change-set application loops (the Applier) -/

/-- One `githubService.commitChange({branch, path, content, message})` call as
observed by the repository collaborator. -/
structure CommitCall where
  branch : List Char
  path : List Char
  content : List Char
  message : List Char
deriving DecidableEq

/-- The commit loop of `PRHandler.handleComment` (pr-handler.ts lines 56-69):
one commit per change, in list order, message prefixed with "AI Update: ". -/
def prApplyChanges (branchName : List Char) : List CodeChange → List CommitCall
  | [] => []
  | change :: rest =>
    CommitCall.mk branchName change.path change.content
      ("AI Update: ".toList ++ change.message) :: prApplyChanges branchName rest

/-- The commit loop of `IssueHandler.handleIssue` (issue-handler.ts lines
40-48): one commit per change, in list order, message passed verbatim. -/
def issueApplyChanges (branchName : List Char) : List CodeChange → List CommitCall
  | [] => []
  | change :: rest =>
    CommitCall.mk branchName change.path change.content change.message
      :: issueApplyChanges branchName rest

/-! ### Command dispatch (src/src/index.ts lines 97-127 and
src/src/handlers/pr-handler.ts lines 41-97) -/

def AI_PR_LABEL : List Char := "axiotree-langchain-ai-pr".toList

def AI_CHANGE_COMMAND : List Char := "/axiotree-langchain-ai-change".toList

def AI_REVIEW_COMMAND : List Char := "/axiotree-langchain-ai-review".toList

/-- The literal comment gate of index.ts: `startsWith('/axiotree-langchain-ai')`. -/
def COMMENT_GATE : List Char := "/axiotree-langchain-ai".toList

structure IssueLabel where
  name : List Char
deriving DecidableEq

structure IssueEvent where
  number : Nat
  title : List Char
  body : List Char
  labels : List IssueLabel
deriving DecidableEq

structure CommentEvent where
  body : List Char
  issue_url : List Char
deriving DecidableEq

inductive Workflow where
  | generatePR
  | applyFeedback
  | review
deriving DecidableEq

/-- `s.startsWith(tok)` on character lists. -/
def startsWithTok (s tok : List Char) : Bool :=
  match tok, s with
  | [], _ => true
  | _ :: _, [] => false
  | t :: ts, b :: bs => b == t && startsWithTok bs ts

/-- Workflow selection inside `PRHandler.handleComment`: the change command is
checked first, then the review command, else nothing. -/
def handleCommentWorkflow (body : List Char) : Option Workflow :=
  if startsWithTok body AI_CHANGE_COMMAND then some Workflow.applyFeedback
  else if startsWithTok body AI_REVIEW_COMMAND then some Workflow.review
  else none

/-- The event dispatch of `run` (index.ts lines 97-127): an `issues` event
needs the trigger label; an `issue_comment` event needs the literal comment
gate prefix before `handleComment` is even called. The selected workflow is
returned (`none` is the no-op case). -/
def dispatch (eventName : List Char) (issue : Option IssueEvent)
    (comment : Option CommentEvent) : Option Workflow :=
  if eventName = "issues".toList then
    match issue with
    | some i =>
      if i.labels.any (fun l => l.name == AI_PR_LABEL) then some Workflow.generatePR
      else none
    | none => none
  else if eventName = "issue_comment".toList then
    match comment with
    | some c =>
      if startsWithTok c.body COMMENT_GATE then handleCommentWorkflow c.body
      else none
    | none => none
  else none

/-! ### Top-level error handling (index.ts, `run`, catch block lines 128-132) -/

/-- A value thrown in JS: either an `Error` instance carrying a message, or
any other thrown value (a string, a number, ...). -/
inductive JsThrown where
  | errObj (message : List Char)
  | nonErr (value : List Char)
deriving DecidableEq

/-- The catch block of `run`: `core.setFailed(error.message)` is executed only
under `error instanceof Error`. Returns the failed-status message the Action
run ends with, `none` when no failed status is set. Total, so `run` itself
never rejects. -/
def runCatch (body : Except JsThrown Unit) : Option (List Char) :=
  match body with
  | Except.ok _ => none
  | Except.error (JsThrown.errObj m) => some m
  | Except.error (JsThrown.nonErr _) => none

/-! ### Branch creation (github-service.ts, `createBranch`, both revisions
identical in behavior: lines 11-25 and 193-210) -/

/-- The observable effect of `createBranch`: which ref was read, which ref was
created, and at which commit sha. -/
structure BranchCreation where
  readRef : List Char
  createdRef : List Char
  atSha : List Char
deriving DecidableEq

/-- `GitHubService.createBranch`: reads `heads/main`, then creates
`refs/heads/<branchName>` at the sha just read. `getRef` is the collaborator. -/
def createBranch (getRef : List Char → Except ApiError (List Char))
    (branchName : List Char) : Except ApiError BranchCreation :=
  match getRef ("heads/main".toList) with
  | Except.error e => Except.error e
  | Except.ok sha =>
    Except.ok (BranchCreation.mk ("heads/main".toList)
      ("refs/heads/".toList ++ branchName) sha)

/-- The branch name `ai-pr/${issue.number}` of `IssueHandler.handleIssue`
(issue-handler.ts line 37). -/
def issueBranchName (issueNumber : Nat) : List Char :=
  "ai-pr/".toList ++ (Nat.repr issueNumber).toList

/-- Concrete collaborator for the commit-conflict scenario: the lookup finds
the file at sha "abc"; the update write carrying a sha fails (a conflict from
a concurrent writer); a write without a sha succeeds. -/
def conflictingWriteApi : CommitApi :=
  CommitApi.mk (ContentLookup.found ("abc".toList))
    (fun sha? => match sha? with
      | some _ => Except.error ApiError.conflict
      | none => Except.ok ())

/-- Concrete `getRef` collaborator knowing only `heads/main`. -/
def mainOnlyGetRef : List Char → Except ApiError (List Char) :=
  fun r => if r = "heads/main".toList then Except.ok ("abc123".toList)
    else Except.error ApiError.notFound

/-! ## Theorems -/

/-! ### Helper lemmas -/

theorem dropWhile_append_of_all (f : Char → Bool) (xs ys : List Char)
    (h : ∀ x ∈ xs, f x = true) :
    List.dropWhile f (xs ++ ys) = List.dropWhile f ys := by
  induction xs with
  | nil => rfl
  | cons a as ih =>
    have ha := h a (List.mem_cons_self a as)
    simp only [List.cons_append, List.dropWhile_cons, ha, if_true]
    exact ih (fun x hx => h x (List.mem_cons_of_mem a hx))

theorem takeToLast_append (c : Char) (l p2 : List Char) (hp2 : c ∉ p2) :
    takeToLast c ((l ++ [c]) ++ p2) = l ++ [c] := by
  unfold takeToLast
  rw [List.reverse_append, List.reverse_append]
  have hall : ∀ x ∈ p2.reverse, (x != c) = true := by
    intro x hx
    have : x ∈ p2 := List.mem_reverse.mp hx
    simp only [bne_iff_ne, ne_eq]
    intro he; exact hp2 (he ▸ this)
  rw [dropWhile_append_of_all _ _ _ hall]
  simp [List.dropWhile]

theorem jsonSpanMatch_skip (p1 s : List Char)
    (h : ∀ ch ∈ p1, ch ≠ '[' ∧ ch ≠ '{') :
    jsonSpanMatch (p1 ++ s) = jsonSpanMatch s := by
  induction p1 with
  | nil => rfl
  | cons a as ih =>
    have ha := h a (List.mem_cons_self a as)
    have h1 : (a == '[') = false := by simp [ha.1]
    have h2 : (a == '{') = false := by simp [ha.2]
    simp only [List.cons_append, jsonSpanMatch, h1, h2, Bool.false_and, if_neg]
    exact ih (fun x hx => h x (List.mem_cons_of_mem a hx))

theorem jsonSpanMatch_at_array (mid p2 : List Char) (hp2 : ']' ∉ p2) :
    jsonSpanMatch (('[' :: (mid ++ [']'])) ++ p2) = some ('[' :: (mid ++ [']'])) := by
  have hc : ((mid ++ [']']) ++ p2).contains ']' = true :=
    List.elem_eq_true_of_mem (by simp)
  show jsonSpanMatch ('[' :: ((mid ++ [']']) ++ p2)) = _
  simp only [jsonSpanMatch, hc, beq_self_eq_true, Bool.and_self, if_true]
  rw [takeToLast_append ']' mid p2 hp2]

theorem startsWithTok_append_self (t r : List Char) :
    startsWithTok (t ++ r) t = true := by
  induction t with
  | nil => simp [startsWithTok]
  | cons c ts ih => simp [startsWithTok, ih]

theorem startsWithTok_mismatch (common b t : List Char) (c d : Char) (h : c ≠ d) :
    startsWithTok ((common ++ c :: b)) (common ++ d :: t) = false := by
  induction common with
  | nil => simp [startsWithTok, h]
  | cons x xs ih => simp [startsWithTok, ih]

theorem validateCodeChange_toJson (c : CodeChange) :
    validateCodeChange (codeChangeToJson c) = some c := rfl

theorem optionMapList_toJson (cs : List CodeChange) :
    optionMapList validateCodeChange (cs.map codeChangeToJson) = some cs := by
  induction cs with
  | nil => rfl
  | cons c rest ih => simp [optionMapList, validateCodeChange_toJson, ih]

theorem option_bind_const_none {α β : Type} (x : Option α) :
    x.bind (fun _ => (none : Option β)) = none := by
  cases x <;> rfl

theorem validateCodeChange_obj_none (l : List (List Char × Json))
    (h : getStr l ("path".toList) = none ∨ getStr l ("content".toList) = none ∨
      getStr l ("message".toList) = none) :
    validateCodeChange (Json.obj l) = none := by
  have hdef : validateCodeChange (Json.obj l) =
      (getStr l ("path".toList)).bind (fun p =>
        (getStr l ("content".toList)).bind (fun c =>
          (getStr l ("message".toList)).bind (fun m =>
            some (CodeChange.mk p c m)))) := rfl
  rw [hdef]
  rcases h with h | h | h <;>
    simp only [h, Option.none_bind, option_bind_const_none]

theorem optionMapList_none_of_mem {α β : Type} (f : α → Option β) (xs : List α)
    (x : α) (hx : x ∈ xs) (hf : f x = none) : optionMapList f xs = none := by
  induction xs with
  | nil => cases hx
  | cons y ys ih =>
    rcases List.mem_cons.mp hx with he | hm
    · subst he; simp [optionMapList, hf]
    · cases hy : f y
      · simp [optionMapList, hy]
      · simp [optionMapList, hy, ih hm]

/-! ### Claim theorems -/

/-- Claim C1 (code bug): in the second revision of `commitChange`, a call
where the lookup succeeds (content hash "abc" obtained) and the
update-with-known-hash write fails with a conflict is NOT surfaced to the
caller: the catch block retries the write without a hash, a second write call
is issued, and here the overall call even reports success, swallowing the
conflict. The first revision behaves as the claim states: the single write's
failure is the caller's result and no second write occurs. -/
theorem commitChange_conflict_retry_eval :
    commitChangeV2 conflictingWriteApi = (Except.ok (), [some ("abc".toList), none]) ∧
    commitChangeV1 conflictingWriteApi =
      (Except.error ApiError.conflict, [some ("abc".toList)]) :=
  ⟨rfl, rfl⟩

/-- Claim C2, counterexample: a change whose `path` and `message` are the
empty string passes `codeChangeSchema.parse` — the schema is plain
`z.string()` with no non-emptiness constraint, so the claimed invariant
"every validated CodeChange has non-empty path and message" is false. -/
theorem validation_accepts_empty_strings_counterexample :
    codeChangeValidate (Json.arr [codeChangeToJson (CodeChange.mk [] [] [])]) =
      Except.ok [CodeChange.mk [] [] []] := rfl

/-- Claim C2, amended: schema validation checks only that `path`, `content`
and `message` are present and of string type; every string value, the empty
string included, is accepted unchanged, so the applier can be invoked with a
change whose path or message is empty. -/
theorem validation_checks_presence_and_type_only (p c m : List Char) :
    codeChangeValidate (Json.arr [codeChangeToJson (CodeChange.mk p c m)]) =
      Except.ok [CodeChange.mk p c m] := by
  have h := optionMapList_toJson [CodeChange.mk p c m]
  simp only [List.map] at h
  simp [codeChangeValidate, h]

/-- Claim C3: extraction or schema-validation failure inside a
change-generation call yields the empty change list, inside a review call
yields the all-empty feedback record, and an error of the LLM invocation
itself propagates unchanged through all three calls. -/
theorem ai_service_degrade_policy :
    (∀ content err, extractJSONFromResponse content = Except.error err →
      generateChangesFromFeedback (Except.ok content) = Except.ok [] ∧
      generateCodeChanges (Except.ok content) = Except.ok [] ∧
      reviewCode (Except.ok content) = Except.ok emptyReviewFeedback) ∧
    (∀ content v, extractJSONFromResponse content = Except.ok v →
      codeChangeValidate v = Except.error SchemaError.invalid →
      generateChangesFromFeedback (Except.ok content) = Except.ok [] ∧
      generateCodeChanges (Except.ok content) = Except.ok []) ∧
    (∀ content v, extractJSONFromResponse content = Except.ok v →
      reviewValidate v = Except.error SchemaError.invalid →
      reviewCode (Except.ok content) = Except.ok emptyReviewFeedback) ∧
    (∀ e, generateChangesFromFeedback (Except.error e) = Except.error e ∧
      generateCodeChanges (Except.error e) = Except.error e ∧
      reviewCode (Except.error e) = Except.error e) := by
  refine ⟨?_, ?_, ?_, ?_⟩
  · intro content err h
    refine ⟨?_, ?_, ?_⟩ <;>
      simp [generateChangesFromFeedback, generateCodeChanges, reviewCode, h]
  · intro content v h hv
    constructor <;>
      simp [generateChangesFromFeedback, generateCodeChanges, h, hv]
  · intro content v h hv
    simp [reviewCode, h, hv]
  · intro e
    exact ⟨rfl, rfl, rfl⟩

/-- Witness for C3 at concrete inputs: prose with no JSON degrades to the
empty results; a provider error propagates. -/
theorem ai_service_degrade_policy_witness :
    generateChangesFromFeedback (Except.ok ("not json at all".toList)) = Except.ok [] ∧
    reviewCode (Except.ok ("not json at all".toList)) = Except.ok emptyReviewFeedback ∧
    generateChangesFromFeedback (Except.error (ProviderError.mk ("429".toList))) =
      Except.error (ProviderError.mk ("429".toList)) :=
  ⟨(ai_service_degrade_policy.1 ("not json at all".toList) ExtractError.noValidJson rfl).1,
    (ai_service_degrade_policy.1 ("not json at all".toList) ExtractError.noValidJson rfl).2.2,
    (ai_service_degrade_policy.2.2.2 (ProviderError.mk ("429".toList))).1⟩

/-- Claim C4, counterexample: the claim fails when the surrounding prose
itself contains brackets. In "See [docs] here: [1, 2]!" the embedded text
"[1, 2]" is a valid JSON array and the whole string is not valid JSON, yet
extraction matches from the FIRST bracket (in "[docs]") to the LAST bracket
greedily, tries to parse "[docs] here: [1, 2]", and fails — it does not
return the embedded array. -/
theorem extract_wrapped_array_counterexample :
    ("See [docs] here: [1, 2]!".toList =
      "See [docs] here: ".toList ++ "[1, 2]".toList ++ "!".toList) ∧
    Json.parse ("[1, 2]".toList) = some (Json.arr [Json.num ['1'], Json.num ['2']]) ∧
    Json.parse ("See [docs] here: [1, 2]!".toList) = none ∧
    extractJSONFromResponse ("See [docs] here: [1, 2]!".toList) =
      Except.error (ExtractError.foundButUnparseable ("[docs] here: [1, 2]".toList)) :=
  ⟨rfl, rfl, rfl, rfl⟩

/-- Claim C4, amended: if a valid JSON array (written `[mid]`) is surrounded
by prose where the prose before it contains no `[` or `{` and the prose
after it contains no `]`, and the whole string is not itself valid JSON,
then extraction returns exactly the embedded array. -/
theorem extract_array_wrapped_in_bracketfree_prose
    (p1 mid p2 : List Char) (xs : List Json)
    (h1 : ∀ ch ∈ p1, ch ≠ '[' ∧ ch ≠ '{')
    (h2 : ']' ∉ p2)
    (ha : Json.parse ('[' :: (mid ++ [']'])) = some (Json.arr xs))
    (hw : Json.parse (p1 ++ ('[' :: (mid ++ [']'])) ++ p2) = none) :
    extractJSONFromResponse (p1 ++ ('[' :: (mid ++ [']'])) ++ p2) =
      Except.ok (Json.arr xs) := by
  unfold extractJSONFromResponse
  rw [hw]
  have hs : jsonSpanMatch (p1 ++ ('[' :: (mid ++ [']'])) ++ p2) =
      some ('[' :: (mid ++ [']'])) := by
    rw [List.append_assoc]
    rw [jsonSpanMatch_skip p1 _ h1]
    exact jsonSpanMatch_at_array mid p2 h2
  rw [hs]
  simp [ha]

/-- Witness for C4 (amended) at a concrete wrapped response. -/
theorem extract_array_wrapped_witness :
    extractJSONFromResponse
        ("Sure, here: ".toList ++ ('[' :: ("1, 2".toList ++ [']'])) ++ " Enjoy.".toList) =
      Except.ok (Json.arr [Json.num ['1'], Json.num ['2']]) :=
  extract_array_wrapped_in_bracketfree_prose ("Sure, here: ".toList) ("1, 2".toList)
    (" Enjoy.".toList) [Json.num ['1'], Json.num ['2']]
    (by decide) (by decide) rfl rfl

/-- Claim C5: a response that is valid JSON in its entirety is returned
parsed and unchanged by extraction (the fallback scan is never consulted). -/
theorem extract_valid_json_identity (t : List Char) (v : Json)
    (h : Json.parse t = some v) : extractJSONFromResponse t = Except.ok v := by
  unfold extractJSONFromResponse
  rw [h]

/-- Witness for C5 at a concrete valid JSON document. -/
theorem extract_valid_json_identity_witness :
    Json.parse ("[true, null]".toList) = some (Json.arr [Json.bool true, Json.null]) ∧
    extractJSONFromResponse ("[true, null]".toList) =
      Except.ok (Json.arr [Json.bool true, Json.null]) :=
  ⟨rfl, extract_valid_json_identity ("[true, null]".toList)
    (Json.arr [Json.bool true, Json.null]) rfl⟩

/-- Claim C6: validating an array of objects carrying exactly the three
string fields returns that array unchanged; an element missing one of
`path`/`content`/`message` or carrying a non-string value there (either way,
`getStr` yields `none` for that key) makes validation fail with a schema
error. -/
theorem codeChangeSchema_validation :
    (∀ cs : List CodeChange,
      codeChangeValidate (Json.arr (cs.map codeChangeToJson)) = Except.ok cs) ∧
    (∀ (xs : List Json) (l : List (List Char × Json)), Json.obj l ∈ xs →
      (getStr l ("path".toList) = none ∨ getStr l ("content".toList) = none ∨
        getStr l ("message".toList) = none) →
      codeChangeValidate (Json.arr xs) = Except.error SchemaError.invalid) := by
  constructor
  · intro cs
    simp [codeChangeValidate, optionMapList_toJson]
  · intro xs l hmem hnone
    have hel : validateCodeChange (Json.obj l) = none :=
      validateCodeChange_obj_none l hnone
    have hall : optionMapList validateCodeChange xs = none :=
      optionMapList_none_of_mem validateCodeChange xs (Json.obj l) hmem hel
    simp [codeChangeValidate, hall]

/-- Witness for C6: a well-formed two-element change set round-trips; an
element missing `content` fails. -/
theorem codeChangeSchema_validation_witness :
    codeChangeValidate (Json.arr
        ((([CodeChange.mk ("a".toList) ("x".toList) ("m1".toList),
           CodeChange.mk ("b".toList) ("y".toList) ("m2".toList)]).map codeChangeToJson))) =
      Except.ok [CodeChange.mk ("a".toList) ("x".toList) ("m1".toList),
        CodeChange.mk ("b".toList) ("y".toList) ("m2".toList)] ∧
    codeChangeValidate (Json.arr [Json.obj [("path".toList, Json.str ("a".toList))]]) =
      Except.error SchemaError.invalid :=
  ⟨codeChangeSchema_validation.1 _,
    codeChangeSchema_validation.2 [Json.obj [("path".toList, Json.str ("a".toList))]]
      [("path".toList, Json.str ("a".toList))] (List.mem_singleton.mpr rfl)
      (Or.inr (Or.inl rfl))⟩

/-- Claim C7: the applier issues exactly one commit per change, in input
order; the feedback-driven loop prefixes each message with "AI Update: ",
the issue-driven loop passes the message verbatim. -/
theorem applier_commit_order (branchName : List Char) (changes : List CodeChange) :
    prApplyChanges branchName changes = changes.map (fun c =>
      CommitCall.mk branchName c.path c.content ("AI Update: ".toList ++ c.message)) ∧
    issueApplyChanges branchName changes = changes.map (fun c =>
      CommitCall.mk branchName c.path c.content c.message) := by
  constructor <;> induction changes with
  | nil => rfl
  | cons c rest ih => simp [prApplyChanges, issueApplyChanges, ih]

/-- Claim C8: an `issues` event without the trigger label dispatches no
workflow, and an `issue_comment` whose body starts with the review command
dispatches exactly the Review workflow (never Apply-Feedback: the change
command, equal in length to the review command, cannot be a prefix of the
body). -/
theorem dispatcher_selects_workflows :
    (∀ i : IssueEvent, (∀ l ∈ i.labels, l.name ≠ AI_PR_LABEL) →
      dispatch ("issues".toList) (some i) none = none) ∧
    (∀ (rest : List Char) (c : CommentEvent), c.body = AI_REVIEW_COMMAND ++ rest →
      dispatch ("issue_comment".toList) none (some c) = some Workflow.review) := by
  constructor
  · intro i h
    have hany : i.labels.any (fun l => l.name == AI_PR_LABEL) = false := by
      rw [List.any_eq_false]
      intro l hl
      simp [h l hl]
    simp [dispatch, hany]
  · intro rest c hc
    have hgate : startsWithTok (AI_REVIEW_COMMAND ++ rest) COMMENT_GATE = true :=
      startsWithTok_append_self COMMENT_GATE ("-review".toList ++ rest)
    have hchange : startsWithTok (AI_REVIEW_COMMAND ++ rest) AI_CHANGE_COMMAND = false :=
      startsWithTok_mismatch ("/axiotree-langchain-ai-".toList)
        ("eview".toList ++ rest) ("hange".toList) 'r' 'c' (by decide)
    have hreview : startsWithTok (AI_REVIEW_COMMAND ++ rest) AI_REVIEW_COMMAND = true :=
      startsWithTok_append_self AI_REVIEW_COMMAND rest
    simp [dispatch, handleCommentWorkflow, hc, hgate, hchange, hreview]

/-- Witness for C8: a labelled-"other" issue dispatches nothing; the comment
"/axiotree-langchain-ai-review please check" dispatches the Review workflow. -/
theorem dispatcher_selects_workflows_witness :
    dispatch ("issues".toList)
        (some (IssueEvent.mk 7 ("t".toList) ("b".toList) [IssueLabel.mk ("other".toList)]))
        none = none ∧
    dispatch ("issue_comment".toList) none
        (some (CommentEvent.mk (AI_REVIEW_COMMAND ++ " please check".toList) ("u".toList))) =
      some Workflow.review :=
  ⟨dispatcher_selects_workflows.1
      (IssueEvent.mk 7 ("t".toList) ("b".toList) [IssueLabel.mk ("other".toList)])
      (by decide),
    dispatcher_selects_workflows.2 (" please check".toList)
      (CommentEvent.mk (AI_REVIEW_COMMAND ++ " please check".toList) ("u".toList)) rfl⟩

/-- Claim C9, counterexample: a thrown value that is not an `Error` instance
(here the string "boom") is swallowed by the `instanceof Error` guard: no
failed status is set, contradicting "every uncaught error, whatever its
type, results in the failed status being set". -/
theorem run_swallows_non_error_counterexample :
    runCatch (Except.error (JsThrown.nonErr ("boom".toList))) = none := rfl

/-- Claim C9, amended: `run` itself never rejects; an uncaught error that is
an `Error` instance sets the failed status with its message; an uncaught
non-`Error` thrown value sets no status at all. -/
theorem run_failure_status :
    (∀ m, runCatch (Except.error (JsThrown.errObj m)) = some m) ∧
    (∀ v, runCatch (Except.error (JsThrown.nonErr v)) = none) ∧
    runCatch (Except.ok ()) = none :=
  ⟨fun _ => rfl, fun _ => rfl, rfl⟩

/-- Claim C10: `createBranch` always reads `heads/main` and creates the new
ref at exactly the sha read, whatever the branch name; in particular every
issue-driven branch `ai-pr/<n>` is forked from the current head of main,
regardless of the issue number. -/
theorem createBranch_forks_from_main
    (getRef : List Char → Except ApiError (List Char))
    (branchName sha : List Char)
    (h : getRef ("heads/main".toList) = Except.ok sha) :
    createBranch getRef branchName = Except.ok (BranchCreation.mk
      ("heads/main".toList) ("refs/heads/".toList ++ branchName) sha) ∧
    (∀ n : Nat, createBranch getRef (issueBranchName n) = Except.ok (BranchCreation.mk
      ("heads/main".toList) ("refs/heads/ai-pr/".toList ++ (Nat.repr n).toList) sha)) := by
  constructor
  · unfold createBranch
    rw [h]
  · intro n
    unfold createBranch
    rw [h]
    rfl

/-- Witness for C10 at a concrete collaborator, branch name and issue 41. -/
theorem createBranch_forks_from_main_witness :
    createBranch mainOnlyGetRef ("feature-x".toList) = Except.ok (BranchCreation.mk
      ("heads/main".toList) ("refs/heads/feature-x".toList) ("abc123".toList)) ∧
    createBranch mainOnlyGetRef (issueBranchName 41) = Except.ok (BranchCreation.mk
      ("heads/main".toList) ("refs/heads/ai-pr/41".toList) ("abc123".toList)) :=
  ⟨(createBranch_forks_from_main mainOnlyGetRef ("feature-x".toList) ("abc123".toList) rfl).1,
    (createBranch_forks_from_main mainOnlyGetRef ("feature-x".toList) ("abc123".toList) rfl).2 41⟩
